import Mathlib

/-
  Verification development for the LIVE-PREVIEW authentication repository.

  Shallow embedding of the session/token-management core:
  - the refresh-token store operations (Prisma calls over a list model),
  - the refresh rotation protocol (`refreshAccessToken`, the POST handler),
  - logout revocation (`revokeRefreshToken`, the DELETE handler),
  - the credential verifier (`authorize`, `isEmailAllowed`,
    `hashPassword` / `verifyPassword` with scrypt as an abstract parameter),
  - the JWT-callback signing block.

  Machine times are modelled as integers (milliseconds since epoch, as in
  JS `Date`).  JavaScript strings that are only compared for equality
  (token values, user ids) are Lean `String`s; strings that the code
  splits or case-folds (emails, password hashes, domain lists) are
  `List Char` with explicitly defined split/trim/lower operations
  mirroring the JS string methods.
-/

namespace LivePreview

/-- A row of the `RefreshToken` Prisma table: token value, owning user id,
absolute expiry (ms since epoch), nullable revocation time. -/
structure RefreshToken where
  token : String
  userId : String
  expiresAt : Int
  revokedAt : Option Int
deriving Repr, DecidableEq

/-- JS falsiness of an optional string (`undefined`, `null` or `""`). -/
def falsyStr (s : Option String) : Bool :=
  match s with
  | none => true
  | some v => v == ""

/-- `prisma.refreshToken.findUnique({ where: { token: v } })` over the list
model: the first row whose token equals `v`. -/
def findByValue (ts : List RefreshToken) (v : String) : Option RefreshToken :=
  ts.find? (fun r => r.token == v)

/-- `prisma.refreshToken.update/updateMany({ where: { token: v },
data: { revokedAt: new Date() } })`: unconditionally sets `revokedAt := now`
on every row whose token equals `v` (no condition on the current
`revokedAt`). -/
def updateRevoke (ts : List RefreshToken) (v : String) (now : Int) : List RefreshToken :=
  ts.map (fun r => if r.token == v then { r with revokedAt := some now } else r)

/-- `prisma.refreshToken.create({ data: { userId, token, expiresAt } })`:
appends a fresh row with `revokedAt = null`. -/
def createToken (ts : List RefreshToken) (userId v : String) (expiresAt : Int) :
    List RefreshToken :=
  ts ++ [{ token := v, userId := userId, expiresAt := expiresAt, revokedAt := none }]

/-- Outcome of `refreshAccessToken` in `options.ts`: either a thrown
`Error(msg)` or the rotated pair (new refresh-token value, user id). -/
inductive RotateResult
  | failure (msg : String)
  | success (newRefreshToken : String) (userId : String)
deriving Repr, DecidableEq

/-- Whether a `RotateResult` is the success case. -/
def RotateResult.isSuccess : RotateResult → Bool
  | .success _ _ => true
  | .failure _ => false

/-- `refreshAccessToken(token)` from `options.ts` (lines 186–213), together
with `createRefreshToken`: validate the presented value against the store,
unconditionally revoke it, then create a fresh token for `userId` (the JWT's
`userId` claim) with expiry `now + ttl*1000`.  The fresh random value is the
explicit argument `newTokenValue`; `now` is the request timestamp. -/
def refreshAccessToken (ts : List RefreshToken) (refreshToken : Option String)
    (userId : String) (now ttl : Int) (newTokenValue : String) :
    RotateResult × List RefreshToken :=
  if falsyStr refreshToken then (.failure "No refresh token", ts)
  else
    let rt := refreshToken.getD ""
    match findByValue ts rt with
    | none => (.failure "Invalid refresh token", ts)
    | some r =>
      if r.revokedAt.isSome || r.expiresAt < now then
        (.failure "Invalid refresh token", ts)
      else
        let ts1 := updateRevoke ts rt now
        let ts2 := createToken ts1 userId newTokenValue (now + ttl * 1000)
        (.success newTokenValue userId, ts2)

example :
    (refreshAccessToken [⟨"t0", "u1", 5000, none⟩] (some "t0") "u1" 0 30 "n1").1
      = .success "n1" "u1" := by decide

example :
    (refreshAccessToken [⟨"t0", "u1", 5000, some 3⟩] (some "t0") "u1" 0 30 "n1").1
      = .failure "Invalid refresh token" := by decide

/-! ### JS string operations (split / trim / toLowerCase) over `List Char` -/

/-- JavaScript strings that get split or case-folded, as character lists. -/
abbrev Str := List Char

/-- JS `s.split(c)`: splits on every occurrence of `c`; `"".split(c) = [""]`,
and a separator at either end yields an empty segment, as in JS. -/
def jsSplit (c : Char) : Str → List Str
  | [] => [[]]
  | x :: xs =>
    if x = c then [] :: jsSplit c xs
    else
      match jsSplit c xs with
      | [] => [[x]]
      | s :: ss => (x :: s) :: ss

/-- JS `s.toLowerCase()` (ASCII case folding, which is all the code needs). -/
def jsLower (s : Str) : Str := s.map Char.toLower

/-- JS `s.trim()`: strip leading and trailing whitespace. -/
def jsTrim (s : Str) : Str :=
  ((s.dropWhile Char.isWhitespace).reverse.dropWhile Char.isWhitespace).reverse

example : jsSplit ':' "ab:cd".toList = ["ab".toList, "cd".toList] := by decide
example : jsSplit ':' "abcd".toList = ["abcd".toList] := by decide
example : jsSplit '@' "a@b@c".toList = ["a".toList, "b".toList, "c".toList] := by decide

/-! ### Hex encoding (`crypto.randomBytes(n).toString("hex")`) -/

/-- One hex digit, lowercase, as produced by Node's hex encoding. -/
def hexDigit (n : Nat) : Char :=
  if n < 10 then Char.ofNat (48 + n) else Char.ofNat (87 + n)

/-- The two hex digits of one byte. -/
def hexByte (b : Nat) : List Char := [hexDigit (b / 16), hexDigit (b % 16)]

/-- `Buffer.toString("hex")` over a byte list. -/
def hexEncode : List Nat → List Char
  | [] => []
  | b :: bs => hexByte b ++ hexEncode bs

/-- A token value as generated by `crypto.randomBytes(64).toString("hex")`. -/
def hexTokenValue (bs : List Nat) : String := String.mk (hexEncode bs)

/-! ### The user table and the full store -/

/-- A row of the `User` Prisma table (the fields the auth core touches).
`email` is a character list because the code splits and case-folds it. -/
structure StoredUser where
  id : String
  email : Str
  name : Option String
  image : Option String
  preferences : Option String
  passwordHash : Option Str
deriving Repr, DecidableEq

/-- The persistent store visible to the token endpoints: the `User` rows and
the `RefreshToken` rows. -/
structure Store where
  users : List StoredUser
  tokens : List RefreshToken
deriving Repr, DecidableEq

/-- `prisma.user` lookup by id (the `include: { user: true }` join of the
POST handler). -/
def findUserById (us : List StoredUser) (uid : String) : Option StoredUser :=
  us.find? (fun u => u.id == uid)

/-! ### HTTP responses of `/api/auth/token` -/

/-- A `Set-Cookie` action on the `refresh-token` cookie: either
`setAuthCookie` with a value and `Max-Age`, or `clearAuthCookie`. -/
inductive CookieAction
  | set (value : String) (maxAgeSeconds : Int)
  | clear
deriving Repr, DecidableEq

/-- The JSON body of a response of the token endpoints. -/
inductive RespBody
  | refreshPayload (accessToken : String) (user : Option StoredUser)
  | errorMsg (msg : String)
  | logoutSuccess
deriving Repr, DecidableEq

/-- An HTTP response: status, body, and the `Set-Cookie` actions appended. -/
structure Response where
  status : Nat
  body : RespBody
  setCookies : List CookieAction
deriving Repr, DecidableEq

/-- `POST /api/auth/token` (`route.ts`): the refresh/rotation endpoint.
`refreshToken` is `parseCookies(...)["refresh-token"]`; `now` the request
time; `ttl` the configured `REFRESH_TOKEN_TTL` in seconds; `newTokenValue`
the value produced by `crypto.randomBytes(64).toString("hex")`; `signResult`
the outcome of the `jose` `SignJWT(...).sign(secret)` call (`.error` models a
thrown signing fault, caught by the surrounding `try`/`catch` into the 500
branch).  Returns the response and the store after the request. -/
def POST (refreshToken : Option String) (st : Store) (now ttl : Int)
    (newTokenValue : String) (signResult : Except String String) :
    Response × Store :=
  if falsyStr refreshToken then
    (⟨401, .errorMsg "No refresh token provided", []⟩, st)
  else
    let rt := refreshToken.getD ""
    match findByValue st.tokens rt with
    | none => (⟨401, .errorMsg "Invalid refresh token", [.clear]⟩, st)
    | some r =>
      if r.revokedAt.isSome || r.expiresAt < now then
        (⟨401, .errorMsg "Invalid refresh token", [.clear]⟩, st)
      else
        let ts1 := updateRevoke st.tokens rt now
        let ts2 := createToken ts1 r.userId newTokenValue (now + ttl * 1000)
        let st2 : Store := { st with tokens := ts2 }
        match signResult with
        | .error _ => (⟨500, .errorMsg "Token refresh failed", [.clear]⟩, st2)
        | .ok accessToken =>
          (⟨200, .refreshPayload accessToken (findUserById st.users r.userId),
              [.set newTokenValue ttl]⟩, st2)

/-- `DELETE /api/auth/token` (`route.ts`): the logout endpoint.  `storeOk`
models whether the `updateMany` store write succeeds; when it throws, the
`catch` branch answers 500 without touching the cookie. -/
def DELETE (refreshToken : Option String) (st : Store) (now : Int)
    (storeOk : Bool) : Response × Store :=
  if falsyStr refreshToken then
    (⟨200, .logoutSuccess, [.clear]⟩, st)
  else if storeOk then
    let ts1 := updateRevoke st.tokens (refreshToken.getD "") now
    (⟨200, .logoutSuccess, [.clear]⟩, { st with tokens := ts1 })
  else
    (⟨500, .errorMsg "Token revocation failed", []⟩, st)

/-- `revokeRefreshToken(tokenValue)` from `options.ts` (lines 215–219):
`updateMany` setting `revokedAt := now` on every matching row,
unconditionally. -/
def revokeRefreshToken (ts : List RefreshToken) (tokenValue : String) (now : Int) :
    List RefreshToken :=
  updateRevoke ts tokenValue now

/-! ### Domain whitelist (`utils.ts`) -/

/-- `ALLOWED_DOMAINS = (env || "").split(",").map(d => d.trim()).filter(Boolean)`:
the configured whitelist parsed from the environment string. -/
def parseAllowedDomains (env : Str) : List Str :=
  ((jsSplit ',' env).map jsTrim).filter (fun d => !d.isEmpty)

/-- `isEmailAllowed(email)` from `utils.ts` (lines 25–32): allow everything
when no whitelist is configured; otherwise lowercase `email.split("@")[1]`
(which is `undefined` when the email has no `@`, making `includes` false)
and test literal membership in the whitelist. -/
def isEmailAllowed (domains : List Str) (email : Str) : Bool :=
  if domains.length = 0 then true
  else
    match (jsSplit '@' email).get? 1 with
    | none => false
    | some d => domains.contains (jsLower d)

example : isEmailAllowed (parseAllowedDomains []) "x@anything.io".toList = true := by
  decide

example :
    isEmailAllowed (parseAllowedDomains "example.com".toList)
      "u@EXAMPLE.com".toList = true := by decide

/-! ### Password hashing (`utils.ts`, scrypt as an abstract derivation) -/

/-- `hashPassword(password)` from `utils.ts` (lines 5–13) with the random
salt made explicit: `salt + ":" + scrypt(password, salt).toString("hex")`.
`scrypt` abstracts the keyed derivation `crypto.scrypt(·, ·, 64)` composed
with hex encoding. -/
def hashPasswordWith (scrypt : Str → Str → Str) (salt password : Str) : Str :=
  salt ++ ':' :: scrypt password salt

/-- `verifyPassword(password, hash)` from `utils.ts` (lines 15–23):
destructure `hash.split(":")` as `[salt, key]` and compare `key` with the
re-derived hex key.  When the hash has no `:`, the destructured `key` is
`undefined` and the strict comparison is false. -/
def verifyPassword (scrypt : Str → Str → Str) (password hash : Str) : Bool :=
  match jsSplit ':' hash with
  | salt :: key :: _ => key == scrypt password salt
  | _ => false

/-! ### The credentials `authorize` callback (`options.ts`, lines 28–61) -/

/-- The `User` object returned on successful authorization (the projection
built at `options.ts` lines 52–60). -/
structure AuthUser where
  id : String
  email : Str
  name : Option String
  image : Option String
  preferences : Option String
deriving Repr, DecidableEq

/-- Outcome of the `authorize` callback as NextAuth observes it: a returned
user, a returned `null`, or a thrown `Error(msg)`. -/
inductive AuthorizeResult
  | ok (u : AuthUser)
  | nullResult
  | thrown (msg : String)
deriving Repr, DecidableEq

/-- JS falsiness of an optional character-list string. -/
def falsyStrL (s : Option Str) : Bool :=
  match s with
  | none => true
  | some v => v.isEmpty

/-- `authorize(credentials)` from `options.ts` (lines 28–61): missing or
empty credentials return `null`; a disallowed domain **throws**
`Error("Email domain not allowed")`; an unknown email, a user without a
password hash, and a failed verification all return `null`. -/
def authorize (domains : List Str) (users : List StoredUser)
    (email password : Option Str) (scrypt : Str → Str → Str) : AuthorizeResult :=
  if falsyStrL email || falsyStrL password then .nullResult
  else
    let e := email.getD []
    if !isEmailAllowed domains e then .thrown "Email domain not allowed"
    else
      match users.find? (fun u => u.email == e) with
      | none => .nullResult
      | some u =>
        if falsyStrL u.passwordHash then .nullResult
        else if verifyPassword scrypt (password.getD []) (u.passwordHash.getD [])
        then .ok ⟨u.id, u.email, u.name, u.image, u.preferences⟩
        else .nullResult

/-! ### The JWT-callback signing block (`options.ts`, lines 104–124) -/

/-- The NextAuth JWT object, restricted to the fields the signing block
reads or writes. -/
structure JWTState where
  userId : Option String
  email : Option String
  accessToken : Option String
  refreshToken : Option String
  refreshTokenExpires : Option Int
  error : Option String
deriving Repr, DecidableEq

/-- The `// Sign JWT tokens` block of the `jwt` callback (`options.ts`
lines 104–124): when `token.userId` is truthy, attempt to sign an access
token; on success store it in `token.accessToken`; the `catch` branch only
logs (`console.error`) and leaves the token untouched. -/
def signJwtBlock (tok : JWTState) (signResult : Except String String) : JWTState :=
  if falsyStr tok.userId then tok
  else
    match signResult with
    | .ok accessToken => { tok with accessToken := some accessToken }
    | .error _ => tok

/-! ### Interleaving semantics of concurrent rotations

Each rotation request performs three awaited store operations in order:
the `findUnique` read (with the validity check on its result), the
unconditional `update` that revokes, and the `create` of the successor
token.  Requests run concurrently and the store is the only shared state,
so an execution is an arbitrary interleaving of these per-request steps. -/

/-- Program counter of one in-flight rotation request: before the read;
after a read that found a valid Active row `r`; after the revoking update;
finished (with its outcome). -/
inductive RotatePC
  | start
  | validRead (r : RefreshToken)
  | revoked (r : RefreshToken)
  | done (succeeded : Bool)
deriving Repr, DecidableEq

/-- One in-flight rotation request: its program counter and the fresh
random value it will give the successor token. -/
structure RotateProc where
  pc : RotatePC
  newTokenValue : String
deriving Repr, DecidableEq

/-- The global state of a concurrent execution: the shared token table and
the in-flight requests, all presenting the same token value. -/
structure ConcState where
  tokens : List RefreshToken
  procs : List RotateProc
deriving Repr, DecidableEq

/-- One atomic step of a single rotation request against the shared store:
read-and-check, then revoke, then create (mirroring the three awaited
Prisma calls of the POST handler / `refreshAccessToken`). -/
def rotateStep (ts : List RefreshToken) (rt : String) (now ttl : Int)
    (p : RotateProc) : List RefreshToken × RotateProc :=
  match p.pc with
  | .start =>
    let pc' :=
      match findByValue ts rt with
      | none => RotatePC.done false
      | some r =>
        if r.revokedAt.isSome || r.expiresAt < now then RotatePC.done false
        else RotatePC.validRead r
    (ts, { p with pc := pc' })
  | .validRead r => (updateRevoke ts rt now, { p with pc := .revoked r })
  | .revoked r =>
    (createToken ts r.userId p.newTokenValue (now + ttl * 1000),
      { p with pc := .done true })
  | .done _ => (ts, p)

/-- Schedule one step of the request at index `i` (no-op for an index out
of range). -/
def schedStep (rt : String) (now ttl : Int) (s : ConcState) (i : Nat) : ConcState :=
  match s.procs.get? i with
  | none => s
  | some p =>
    let (ts', p') := rotateStep s.tokens rt now ttl p
    { tokens := ts', procs := s.procs.set i p' }

/-- Run a whole schedule (a list of request indices, one per step). -/
def runSchedule (rt : String) (now ttl : Int) (sched : List Nat) (s : ConcState) :
    ConcState :=
  sched.foldl (schedStep rt now ttl) s

/-- How many of the requests finished successfully. -/
def successCount (s : ConcState) : Nat :=
  (s.procs.filter (fun p => p.pc == RotatePC.done true)).length

/-- A schedule that runs one request to completion before the next starts:
request 0's three steps, then request 1's three steps, and so on. -/
def serialSchedule (n : Nat) : List Nat :=
  (List.range n).flatMap (fun i => [i, i, i])

/-! ## Helper lemmas -/

/-- A row returned by `findByValue` bears the searched token value. -/
theorem findByValue_token_eq {ts : List RefreshToken} {v : String} {r : RefreshToken}
    (h : findByValue ts v = some r) : r.token = v := by
  have := List.find?_some h
  exact eq_of_beq this

/-- A row returned by `findByValue` is a member of the table. -/
theorem findByValue_mem {ts : List RefreshToken} {v : String} {r : RefreshToken}
    (h : findByValue ts v = some r) : r ∈ ts :=
  List.mem_of_find?_eq_some h

/-- After the revoking update, every row bearing the revoked value has
`revokedAt = some now`. -/
theorem updateRevoke_mem_revoked {ts : List RefreshToken} {v : String} {now : Int}
    {x : RefreshToken} (hx : x ∈ updateRevoke ts v now) (htok : x.token = v) :
    x.revokedAt = some now := by
  rcases List.mem_map.mp hx with ⟨orig, _, horig⟩
  by_cases hc : orig.token == v
  · simp [hc] at horig
    subst horig
    rfl
  · simp [hc] at horig
    subst horig
    exact absurd (beq_iff_eq.mpr htok) hc

/-- Rows not bearing the revoked value pass through the update unchanged. -/
theorem updateRevoke_mem_other {ts : List RefreshToken} {v : String} {now : Int}
    {x : RefreshToken} (hx : x ∈ ts) (htok : x.token ≠ v) :
    x ∈ updateRevoke ts v now := by
  have : (if x.token == v then { x with revokedAt := some now } else x) = x := by
    simp [beq_iff_eq, htok]
  exact this ▸ List.mem_map_of_mem _ hx

/-- After a successful rotation's store writes (revoke, then create with a
fresh value), every row bearing the presented value is revoked. -/
theorem rotated_store_revoked {ts : List RefreshToken} {rt uid nv : String}
    {now exp : Int} (hnv : nv ≠ rt) {x : RefreshToken}
    (hx : x ∈ createToken (updateRevoke ts rt now) uid nv exp)
    (htok : x.token = rt) : x.revokedAt = some now := by
  rcases List.mem_append.mp hx with hmem | hnew
  · exact updateRevoke_mem_revoked hmem htok
  · have : x = { token := nv, userId := uid, expiresAt := exp, revokedAt := none } := by
      simpa [createToken] using hnew
    rw [this] at htok
    exact absurd htok hnv

/-- If every row bearing the presented value is already revoked, a rotation
attempt fails, whatever the current time. -/
theorem rotate_fails_of_all_revoked {ts : List RefreshToken} {rt : String}
    {uid : String} {now ttl : Int} {nv : String}
    (hall : ∀ x ∈ ts, x.token = rt → x.revokedAt.isSome) :
    (refreshAccessToken ts (some rt) uid now ttl nv).1.isSuccess = false := by
  unfold refreshAccessToken
  by_cases hrt : rt = ""
  · simp [falsyStr, hrt, RotateResult.isSuccess]
  · simp only [falsyStr, beq_iff_eq, hrt, if_neg, Bool.false_eq_true, ite_false,
      Option.getD_some]
    cases hfind : findByValue ts rt with
    | none => simp [RotateResult.isSuccess]
    | some r =>
      have hr : r.revokedAt.isSome :=
        hall r (findByValue_mem hfind) (findByValue_token_eq hfind)
      simp [hr, RotateResult.isSuccess]

/-- Rotation failing (`findByValue` miss, revoked, or expired) leaves the
token table untouched; this equation also fixes the failure branches. -/
theorem rotate_miss_eq {ts : List RefreshToken} {rt uid : String} {now ttl : Int}
    {nv : String} (hrt : rt ≠ "") (hfind : findByValue ts rt = none) :
    refreshAccessToken ts (some rt) uid now ttl nv =
      (.failure "Invalid refresh token", ts) := by
  unfold refreshAccessToken
  simp [falsyStr, hrt, hfind]

/-- The unusable-row failure branch of `refreshAccessToken` as an equation. -/
theorem rotate_unusable_eq {ts : List RefreshToken} {rt uid : String} {now ttl : Int}
    {nv : String} {r : RefreshToken} (hrt : rt ≠ "")
    (hfind : findByValue ts rt = some r)
    (hbad : r.revokedAt.isSome ∨ r.expiresAt < now) :
    refreshAccessToken ts (some rt) uid now ttl nv =
      (.failure "Invalid refresh token", ts) := by
  unfold refreshAccessToken
  have : (r.revokedAt.isSome || decide (r.expiresAt < now)) = true := by
    rcases hbad with h | h
    · simp [h]
    · simp [h]
  simp [falsyStr, hrt, hfind, this]

/-- The success branch of `refreshAccessToken` as an equation. -/
theorem rotate_success_eq {ts : List RefreshToken} {rt uid : String} {now ttl : Int}
    {nv : String} {r : RefreshToken} (hrt : rt ≠ "")
    (hfind : findByValue ts rt = some r)
    (hrev : r.revokedAt = none) (hexp : ¬ r.expiresAt < now) :
    refreshAccessToken ts (some rt) uid now ttl nv =
      (.success nv uid,
        createToken (updateRevoke ts rt now) uid nv (now + ttl * 1000)) := by
  unfold refreshAccessToken
  simp [falsyStr, hrt, hfind, hrev, hexp]

/-- Claim C1 (evaluation of the code at the failing interleaving): from a
store holding the single Active token `"t0"`, two concurrent rotation
requests presenting `"t0"`, interleaved as read–read–revoke–revoke–
create–create, **both** finish successfully (the revoking `update` is
unconditional, so neither request observes the other's revocation),
whereas running the two requests serially yields exactly one success. -/
theorem concurrent_rotation_double_success :
    successCount (runSchedule "t0" 0 30 [0, 1, 0, 1, 0, 1]
      ⟨[⟨"t0", "u1", 5000, none⟩], [⟨.start, "n1"⟩, ⟨.start, "n2"⟩]⟩) = 2
    ∧ successCount (runSchedule "t0" 0 30 (serialSchedule 2)
      ⟨[⟨"t0", "u1", 5000, none⟩], [⟨.start, "n1"⟩, ⟨.start, "n2"⟩]⟩) = 1 := by
  decide

/-- Claim C2, counterexample: a token whose `expiresAt` equals the current
time is **not** strictly in the future, yet rotation succeeds, because the
code only rejects `expiresAt < now`. -/
theorem rotate_succeeds_at_exact_expiry :
    (refreshAccessToken [⟨"t0", "u1", 1000, none⟩] (some "t0") "u1" 1000 30 "n1").1
      = RotateResult.success "n1" "u1" ∧ ¬ ((1000 : Int) < 1000) := by decide

/-- Claim C2 as amended: rotation succeeds iff the presented value is found,
unrevoked, and not yet expired (`now ≤ expiresAt`, i.e. strictly-past
expiry fails but expiry exactly at `now` succeeds); and a second sequential
rotation with the same value (at any later time, with a fresh random
successor value) always fails. -/
theorem rotate_succeeds_iff_usable_and_second_call_fails
    (ts : List RefreshToken) (rt uid uid' nv nv' : String) (now now' ttl ttl' : Int)
    (hrt : rt ≠ "") (hnv : nv ≠ rt) (hnow : now ≤ now') :
    ((refreshAccessToken ts (some rt) uid now ttl nv).1.isSuccess = true ↔
      ∃ r, findByValue ts rt = some r ∧ r.revokedAt = none ∧ now ≤ r.expiresAt)
    ∧ (refreshAccessToken (refreshAccessToken ts (some rt) uid now ttl nv).2
        (some rt) uid' now' ttl' nv').1.isSuccess = false := by
  constructor
  · cases hfind : findByValue ts rt with
    | none =>
      rw [rotate_miss_eq hrt hfind]
      simp [RotateResult.isSuccess]
    | some r =>
      by_cases hrev : r.revokedAt.isSome
      · rw [rotate_unusable_eq hrt hfind (Or.inl hrev)]
        simp only [RotateResult.isSuccess, Bool.false_eq_true, false_iff]
        rintro ⟨r', hr', hnone, -⟩
        have heq : r = r' := by injection hr'
        subst heq
        rw [hnone] at hrev
        simp at hrev
      · by_cases hexp : r.expiresAt < now
        · rw [rotate_unusable_eq hrt hfind (Or.inr hexp)]
          simp only [RotateResult.isSuccess, Bool.false_eq_true, false_iff]
          rintro ⟨r', hr', -, hle⟩
          have heq : r = r' := by injection hr'
          subst heq
          exact absurd hle (not_le.mpr hexp)
        · rw [rotate_success_eq hrt hfind (Option.not_isSome_iff_eq_none.mp hrev) hexp]
          simp only [RotateResult.isSuccess, true_iff]
          exact ⟨r, rfl, Option.not_isSome_iff_eq_none.mp hrev, not_lt.mp hexp⟩
  · cases hfind : findByValue ts rt with
    | none =>
      rw [rotate_miss_eq hrt hfind]
      simp only
      rw [rotate_miss_eq hrt hfind]
      simp [RotateResult.isSuccess]
    | some r =>
      by_cases hrev : r.revokedAt.isSome
      · rw [rotate_unusable_eq hrt hfind (Or.inl hrev)]
        simp only
        rw [rotate_unusable_eq hrt hfind (Or.inl hrev)]
        simp [RotateResult.isSuccess]
      · by_cases hexp : r.expiresAt < now
        · rw [rotate_unusable_eq hrt hfind (Or.inr hexp)]
          simp only
          rw [rotate_unusable_eq hrt hfind (Or.inr (lt_of_lt_of_le hexp hnow))]
          simp [RotateResult.isSuccess]
        · rw [rotate_success_eq hrt hfind (Option.not_isSome_iff_eq_none.mp hrev) hexp]
          simp only
          exact rotate_fails_of_all_revoked (fun x hx htok => by
            rw [rotated_store_revoked hnv hx htok]
            rfl)

/-- Claim C2, witness: concrete run of the amended theorem — the first
rotation of an Active token succeeds and the immediate second rotation with
the same value fails. -/
theorem rotate_succeeds_iff_usable_witness :
    (refreshAccessToken [⟨"t0", "u1", 5000, none⟩] (some "t0") "u1" 0 30 "n1").1.isSuccess
      = true
    ∧ (refreshAccessToken
        (refreshAccessToken [⟨"t0", "u1", 5000, none⟩] (some "t0") "u1" 0 30 "n1").2
        (some "t0") "u1" 1 30 "n2").1.isSuccess = false := by
  have h := rotate_succeeds_iff_usable_and_second_call_fails
    [⟨"t0", "u1", 5000, none⟩] "t0" "u1" "u1" "n1" "n2" 0 1 30 30
    (by decide) (by decide) (by decide)
  exact ⟨h.1.mpr ⟨⟨"t0", "u1", 5000, none⟩, by decide, rfl, by decide⟩, h.2⟩

/-- Hex encoding yields two characters per byte. -/
theorem hexEncode_length (bs : List Nat) : (hexEncode bs).length = 2 * bs.length := by
  induction bs with
  | nil => rfl
  | cons b bs ih =>
    simp only [hexEncode, hexByte, List.length_append, List.length_cons,
      List.length_nil, ih]
    ring

/-- A token value generated from `n` random bytes has `2n` characters. -/
theorem hexTokenValue_length (bs : List Nat) :
    (hexTokenValue bs).length = 2 * bs.length := by
  have h : (hexTokenValue bs).length = (hexEncode bs).length := rfl
  rw [h, hexEncode_length]

/-- The success branch of the POST handler as an equation: 200 payload, new
refresh cookie, and the store after revoke-then-create. -/
theorem POST_success_eq {st : Store} {rt : String} {r : RefreshToken}
    {now ttl : Int} {nv at_ : String} (hrt : rt ≠ "")
    (hfind : findByValue st.tokens rt = some r)
    (hrev : r.revokedAt = none) (hexp : ¬ r.expiresAt < now) :
    POST (some rt) st now ttl nv (.ok at_) =
      (⟨200, .refreshPayload at_ (findUserById st.users r.userId), [.set nv ttl]⟩,
        { st with tokens :=
            createToken (updateRevoke st.tokens rt now) r.userId nv (now + ttl * 1000) }) := by
  unfold POST
  simp [falsyStr, hrt, hfind, hrev, hexp]

/-- Claim C3: a successful rotation through the POST handler revokes the
presented token strictly before the created successor row (every row of the
store prefix preceding the appended successor that bears the presented
value carries `revokedAt = now`), and the successor belongs to the same
user as the presented token, has expiry `now + ttl·1000`, is unrevoked, and
its value — 64 random bytes hex-encoded — has 128 characters. -/
theorem rotation_revokes_then_creates
    (st : Store) (rt : String) (r : RefreshToken) (now ttl : Int)
    (bs : List Nat) (at_ : String)
    (hrt : rt ≠ "") (hfind : findByValue st.tokens rt = some r)
    (hrev : r.revokedAt = none) (hexp : ¬ r.expiresAt < now)
    (hlen : bs.length = 64) :
    ∃ mid,
      (POST (some rt) st now ttl (hexTokenValue bs) (.ok at_)).2.tokens
        = mid ++ [⟨hexTokenValue bs, r.userId, now + ttl * 1000, none⟩]
      ∧ (∀ x ∈ mid, x.token = rt → x.revokedAt = some now)
      ∧ (POST (some rt) st now ttl (hexTokenValue bs) (.ok at_)).1
          = ⟨200, .refreshPayload at_ (findUserById st.users r.userId),
              [.set (hexTokenValue bs) ttl]⟩
      ∧ (hexTokenValue bs).length = 128 := by
  refine ⟨updateRevoke st.tokens rt now, ?_, ?_, ?_, ?_⟩
  · rw [POST_success_eq hrt hfind hrev hexp]
    rfl
  · exact fun x hx htok => updateRevoke_mem_revoked hx htok
  · rw [POST_success_eq hrt hfind hrev hexp]
  · rw [hexTokenValue_length, hlen]

/-- Claim C3, witness: the rotation postconditions evaluated on a concrete
store with one Active token and a concrete 64-byte random value. -/
theorem rotation_revokes_then_creates_witness :
    ∃ mid,
      (POST (some "t0") ⟨[], [⟨"t0", "u1", 5000, none⟩]⟩ 0 30
          (hexTokenValue (List.replicate 64 0)) (.ok "a")).2.tokens
        = mid ++ [⟨hexTokenValue (List.replicate 64 0), "u1", 0 + 30 * 1000, none⟩]
      ∧ (∀ x ∈ mid, x.token = "t0" → x.revokedAt = some 0)
      ∧ (POST (some "t0") ⟨[], [⟨"t0", "u1", 5000, none⟩]⟩ 0 30
          (hexTokenValue (List.replicate 64 0)) (.ok "a")).1
          = ⟨200, .refreshPayload "a" (findUserById [] "u1"),
              [.set (hexTokenValue (List.replicate 64 0)) 30]⟩
      ∧ (hexTokenValue (List.replicate 64 0)).length = 128 :=
  rotation_revokes_then_creates ⟨[], [⟨"t0", "u1", 5000, none⟩]⟩ "t0"
    ⟨"t0", "u1", 5000, none⟩ 0 30 (List.replicate 64 0) "a"
    (by decide) (by decide) rfl (by decide) (by decide)

/-- Claim C4, counterexample: revoking an already-revoked token overwrites
its revocation timestamp (`some 5` becomes `some 9`), so the earlier
revocation time is **not** preserved. -/
theorem revoke_overwrites_revocation_time :
    revokeRefreshToken [⟨"t0", "u1", 9999, some 5⟩] "t0" 9
      = [⟨"t0", "u1", 9999, some 9⟩]
    ∧ (some (5 : Int)) ≠ some 9 := by decide

/-- Claim C4 as amended: `revoke` never errors and unconditionally sets
`revokedAt := now` on every row bearing the value — overwriting any earlier
revocation timestamp — while rows bearing other values pass through
unchanged; a revoked row stays revoked (its `revokedAt` remains non-null),
but not with its original timestamp. -/
theorem revoke_unconditionally_sets_now
    (ts : List RefreshToken) (v : String) (now : Int) :
    (revokeRefreshToken ts v now).length = ts.length
    ∧ (∀ x ∈ revokeRefreshToken ts v now, x.token = v → x.revokedAt = some now)
    ∧ (∀ x ∈ ts, x.token ≠ v → x ∈ revokeRefreshToken ts v now)
    ∧ (∀ i x, ts.get? i = some x →
        ∃ y, (revokeRefreshToken ts v now).get? i = some y ∧ y.token = x.token
          ∧ (x.revokedAt.isSome → y.revokedAt.isSome)) := by
  refine ⟨by simp [revokeRefreshToken, updateRevoke],
    fun x hx htok => updateRevoke_mem_revoked hx htok,
    fun x hx htok => updateRevoke_mem_other hx htok, ?_⟩
  intro i x hget
  rw [List.get?_eq_getElem?] at hget
  refine ⟨if x.token == v then { x with revokedAt := some now } else x, ?_, ?_, ?_⟩
  · simp [revokeRefreshToken, updateRevoke, List.get?_eq_getElem?,
      List.getElem?_map, hget]
  · by_cases hc : x.token == v <;> simp [hc]
  · by_cases hc : x.token == v <;> simp [hc]

/-- Claim C4, witness: the amended revocation behaviour evaluated on a
two-row store. -/
theorem revoke_unconditionally_sets_now_witness :
    (revokeRefreshToken [⟨"t0", "u1", 9999, some 5⟩, ⟨"t1", "u2", 7, none⟩]
        "t0" 9).length = 2 :=
  (revoke_unconditionally_sets_now
    [⟨"t0", "u1", 9999, some 5⟩, ⟨"t1", "u2", 7, none⟩] "t0" 9).1

/-- The cons unfolding of `jsSplit` as an equation. -/
theorem jsSplit_cons (c x : Char) (xs : Str) :
    jsSplit c (x :: xs) =
      if x = c then [] :: jsSplit c xs
      else
        match jsSplit c xs with
        | [] => [[x]]
        | s :: ss => (x :: s) :: ss := by
  rfl

/-- Splitting a string that does not contain the separator yields the
single whole segment, as JS `split`. -/
theorem jsSplit_of_not_mem {c : Char} {s : Str} (h : c ∉ s) : jsSplit c s = [s] := by
  induction s with
  | nil => rfl
  | cons x xs ih =>
    rw [List.mem_cons] at h
    push_neg at h
    rw [jsSplit_cons, if_neg (fun hx => h.1 hx.symm), ih h.2]

/-- Splitting at the first separator occurrence: the separator-free prefix
becomes the first segment. -/
theorem jsSplit_append_cons {c : Char} {s t : Str} (h : c ∉ s) :
    jsSplit c (s ++ c :: t) = s :: jsSplit c t := by
  induction s with
  | nil =>
    show jsSplit c (c :: t) = [] :: jsSplit c t
    rw [jsSplit_cons, if_pos rfl]
  | cons x xs ih =>
    rw [List.mem_cons] at h
    push_neg at h
    show jsSplit c (x :: (xs ++ c :: t)) = (x :: xs) :: jsSplit c t
    rw [jsSplit_cons, if_neg (fun hx => h.1 hx.symm), ih h.2]

/-- Claim C5, counterexample: with whitelist `example.com` and an empty user
table, a disallowed domain makes `authorize` **throw**
`Error("Email domain not allowed")` while an unknown email of an allowed
domain returns `null` — the two failures are distinguishable to the caller
and the former is a thrown fault, not a typed outcome. -/
theorem authorize_throws_on_disallowed_domain :
    authorize (parseAllowedDomains "example.com".toList) []
        (some "u@other.com".toList) (some "x".toList) (fun q _ => q)
      = .thrown "Email domain not allowed"
    ∧ authorize (parseAllowedDomains "example.com".toList) []
        (some "u@example.com".toList) (some "x".toList) (fun q _ => q)
      = .nullResult
    ∧ (AuthorizeResult.thrown "Email domain not allowed") ≠ .nullResult := by
  decide

/-- Claim C5 as amended: missing/empty credentials, an unknown email, a
user without a password hash, and a failed password verification all
return the same `null` outcome (mutually indistinguishable), but a
disallowed email domain is signalled by **throwing**
`Error("Email domain not allowed")` — a fault the caller can distinguish
from the `null` outcome. -/
theorem authorize_failure_shapes (domains : List Str) (users : List StoredUser)
    (email password : Option Str) (scrypt : Str → Str → Str) :
    ((falsyStrL email || falsyStrL password) = true →
      authorize domains users email password scrypt = .nullResult)
    ∧ ((falsyStrL email || falsyStrL password) = false →
        isEmailAllowed domains (email.getD []) = false →
        authorize domains users email password scrypt
          = .thrown "Email domain not allowed")
    ∧ ((falsyStrL email || falsyStrL password) = false →
        isEmailAllowed domains (email.getD []) = true →
        (users.find? (fun u => u.email == email.getD []) = none →
          authorize domains users email password scrypt = .nullResult)
        ∧ (∀ u, users.find? (fun u => u.email == email.getD []) = some u →
            falsyStrL u.passwordHash = true →
            authorize domains users email password scrypt = .nullResult)
        ∧ (∀ u, users.find? (fun u => u.email == email.getD []) = some u →
            falsyStrL u.passwordHash = false →
            verifyPassword scrypt (password.getD []) (u.passwordHash.getD []) = false →
            authorize domains users email password scrypt = .nullResult)) := by
  refine ⟨?_, ?_, ?_⟩
  · intro h
    unfold authorize
    simp [h]
  · intro h1 h2
    unfold authorize
    simp [h1, h2]
  · intro h1 h2
    refine ⟨?_, ?_, ?_⟩
    · intro hfind
      unfold authorize
      simp [h1, h2, hfind]
    · intro u hfind hhash
      unfold authorize
      simp [h1, h2, hfind, hhash]
    · intro u hfind hhash hver
      unfold authorize
      simp [h1, h2, hfind, hhash, hver]

/-- Claim C5, witness: the amended failure shapes evaluated at concrete
inputs — a disallowed domain throws, an unknown allowed email returns
`null`. -/
theorem authorize_failure_shapes_witness :
    authorize (parseAllowedDomains "example.com".toList) []
        (some "u@other.com".toList) (some "x".toList) (fun q _ => q)
      = .thrown "Email domain not allowed"
    ∧ authorize (parseAllowedDomains "example.com".toList) []
        (some "u@example.com".toList) (some "x".toList) (fun q _ => q)
      = .nullResult := by
  have h1 := (authorize_failure_shapes (parseAllowedDomains "example.com".toList) []
    (some "u@other.com".toList) (some "x".toList) (fun q _ => q)).2.1
    (by decide) (by decide)
  have h2 := ((authorize_failure_shapes (parseAllowedDomains "example.com".toList) []
    (some "u@example.com".toList) (some "x".toList) (fun q _ => q)).2.2
    (by decide) (by decide)).1 (by decide)
  exact ⟨h1, h2⟩

/-- Claim C6, counterexample: with the whitelist configured as
`"Example.com"` (an entry containing upper-case letters), the email
`u@example.com` — whose domain matches that entry case-insensitively — is
rejected: only the email side is lowercased, the whitelist entries are
compared verbatim. -/
theorem email_rejected_despite_case_insensitive_match :
    isEmailAllowed (parseAllowedDomains "Example.com".toList)
        "u@example.com".toList = false
    ∧ jsLower "Example.com".toList = jsLower "example.com".toList
    ∧ parseAllowedDomains "Example.com".toList ≠ [] := by decide

/-- Claim C6 as amended: an email is accepted exactly when the whitelist is
empty, or the segment after the first `@` (up to any second `@`) exists
and, lowercased, is **verbatim** an entry of the configured whitelist — the
comparison is case-insensitive only on the email side; whitelist entries
are matched as configured. -/
theorem email_allowed_iff (domains : List Str) (email : Str) :
    isEmailAllowed domains email = true ↔
      (domains = []
        ∨ ∃ d, (jsSplit '@' email).get? 1 = some d ∧ jsLower d ∈ domains) := by
  unfold isEmailAllowed
  by_cases hd : domains.length = 0
  · have hnil : domains = [] := List.length_eq_zero.mp hd
    simp [hd, hnil]
  · have hne : domains ≠ [] := fun h => hd (by simp [h])
    rw [if_neg hd]
    cases hsplit : (jsSplit '@' email).get? 1 with
    | none => simp [hne]
    | some d =>
      constructor
      · intro h
        exact Or.inr ⟨d, rfl, by simpa using h⟩
      · rintro (h | ⟨d', hd', hmem⟩)
        · exact absurd h hne
        · have heq : d = d' := by injection hd'
          subst heq
          simpa using hmem

/-- Claim C6, witness: the amended characterization evaluated on a
lower-case whitelist, where the case-insensitive acceptance does hold. -/
theorem email_allowed_iff_witness :
    isEmailAllowed (parseAllowedDomains "example.com".toList)
      "u@EXAMPLE.com".toList = true :=
  (email_allowed_iff (parseAllowedDomains "example.com".toList)
    "u@EXAMPLE.com".toList).mpr
    (Or.inr ⟨"EXAMPLE.com".toList, by decide, by decide⟩)

/-- Claim C7: the password-hash round trip.  For any abstract keyed
derivation (`scrypt` composed with hex encoding) that is collision-free in
the password for the fixed salt, and whose output — like the salt — does
not contain the `:` separator, verification of a stored hash
`salt : derivedKey` succeeds exactly for the password that produced it. -/
theorem verify_roundtrip (scrypt : Str → Str → Str) (salt p p' : Str)
    (hsalt : ':' ∉ salt) (hkey : ':' ∉ scrypt p' salt)
    (hinj : ∀ q q', scrypt q salt = scrypt q' salt → q = q') :
    verifyPassword scrypt p (hashPasswordWith scrypt salt p') = true ↔ p = p' := by
  unfold verifyPassword hashPasswordWith
  rw [jsSplit_append_cons hsalt, jsSplit_of_not_mem hkey]
  show (scrypt p' salt == scrypt p salt) = true ↔ p = p'
  constructor
  · intro h
    rw [beq_iff_eq] at h
    exact (hinj p' p h).symm
  · rintro rfl
    exact beq_self_eq_true _

/-- Claim C7, witness: the round trip evaluated with a concrete injective
derivation, a concrete salt and a concrete password. -/
theorem verify_roundtrip_witness :
    verifyPassword (fun q _ => q) "pw".toList
      (hashPasswordWith (fun q _ => q) "sa".toList "pw".toList) = true :=
  (verify_roundtrip (fun q _ => q) "sa".toList "pw".toList "pw".toList
    (by decide) (by decide) (fun _ _ h => h)).mpr rfl

/-- Claim C8, counterexample: when signing fails, the jwt callback's
catch-block only logs — the returned token carries **no** error field
(`error = none`) and no access token, so the failure is not surfaced as an
error field on the session/token object. -/
theorem signing_failure_not_surfaced :
    (signJwtBlock ⟨some "u1", some "e", none, some "r", some 99, none⟩
        (.error "bad secret")).error = none
    ∧ (signJwtBlock ⟨some "u1", some "e", none, some "r", some 99, none⟩
        (.error "bad secret")).accessToken = none := by decide

/-- Claim C8 as amended: a signing failure is caught inside the jwt
callback — no exception escapes to the HTTP layer — but it is only logged:
the callback returns the token completely unchanged, setting neither a
fresh `accessToken` nor an `error` field (the `error` field is set only by
the separate refresh-failure path). -/
theorem signing_failure_logged_only (tok : JWTState) (msg : String) :
    signJwtBlock tok (.error msg) = tok := by
  unfold signJwtBlock
  by_cases h : falsyStr tok.userId <;> simp [h]

/-- Claim C8, witness: the amended behaviour evaluated on a concrete
token. -/
theorem signing_failure_logged_only_witness :
    signJwtBlock ⟨some "u1", some "e", none, some "r", some 99, none⟩
        (.error "boom")
      = ⟨some "u1", some "e", none, some "r", some 99, none⟩ :=
  signing_failure_logged_only ⟨some "u1", some "e", none, some "r", some 99, none⟩
    "boom"

/-- Claim C9, counterexample: the refresh endpoint's missing-cookie 401
(`"No refresh token provided"`) appends **no** `Set-Cookie` header at all —
its cookie is not cleared, so not every 401 comes with a cleared refresh
cookie. -/
theorem missing_cookie_401_does_not_clear :
    (POST none ⟨[], []⟩ 0 30 "n" (.ok "a")).1
      = ⟨401, .errorMsg "No refresh token provided", []⟩
    ∧ CookieAction.clear ∉ (POST none ⟨[], []⟩ 0 30 "n" (.ok "a")).1.setCookies := by
  decide

/-- Claim C9 as amended: every refresh (POST) response is a 200 success
payload setting the new refresh cookie, a 401 — with the cookie cleared
except in the missing-cookie case, which sets no cookie — or a 500 with the
cookie cleared; the logout (DELETE) endpoint answers 200 `{success:true}`
with the cookie cleared whenever the store write does not fault (even when
the cookie is absent, the token unknown, or already revoked), and a 500
with no cookie header on a store fault. -/
theorem http_boundary_response_shapes (rt : Option String) (st : Store)
    (now ttl : Int) (nv : String) (sg : Except String String) (storeOk : Bool) :
    ((POST rt st now ttl nv sg).1.status = 200
        ∧ (POST rt st now ttl nv sg).1.setCookies = [.set nv ttl]
      ∨ (POST rt st now ttl nv sg).1.status = 401
        ∧ ((POST rt st now ttl nv sg).1.setCookies = [.clear]
            ∨ falsyStr rt = true ∧ (POST rt st now ttl nv sg).1.setCookies = [])
      ∨ (POST rt st now ttl nv sg).1.status = 500
        ∧ (POST rt st now ttl nv sg).1.setCookies = [.clear])
    ∧ (storeOk = true →
        (DELETE rt st now storeOk).1 = ⟨200, .logoutSuccess, [.clear]⟩)
    ∧ ((DELETE rt st now storeOk).1.status = 200
        ∧ (DELETE rt st now storeOk).1.setCookies = [.clear]
      ∨ (DELETE rt st now storeOk).1.status = 500
        ∧ (DELETE rt st now storeOk).1.setCookies = []) := by
  refine ⟨?_, ?_, ?_⟩
  · by_cases hf : falsyStr rt = true
    · refine Or.inr (Or.inl ⟨?_, Or.inr ⟨hf, ?_⟩⟩) <;> · unfold POST; simp [hf]
    · cases hfind : findByValue st.tokens (rt.getD "") with
      | none =>
        refine Or.inr (Or.inl ⟨?_, Or.inl ?_⟩) <;>
          · unfold POST; simp [hf, hfind]
      | some r =>
        by_cases hbad : (r.revokedAt.isSome || decide (r.expiresAt < now)) = true
        · refine Or.inr (Or.inl ⟨?_, Or.inl ?_⟩) <;>
            · unfold POST; simp [hf, hfind, hbad]
        · cases sg with
          | error e =>
            refine Or.inr (Or.inr ⟨?_, ?_⟩) <;>
              · unfold POST; simp [hf, hfind, hbad]
          | ok at_ =>
            refine Or.inl ⟨?_, ?_⟩ <;>
              · unfold POST; simp [hf, hfind, hbad]
  · intro hok
    unfold DELETE
    by_cases hf : falsyStr rt = true <;> simp [hf, hok]
  · unfold DELETE
    by_cases hf : falsyStr rt = true
    · simp [hf]
    · by_cases hok : storeOk = true <;> simp [hf, hok]

/-- Claim C9, witness: the amended logout guarantee evaluated concretely —
with no cookie present and a healthy store, DELETE answers 200 success with
the cookie cleared. -/
theorem http_boundary_response_shapes_witness :
    (DELETE none ⟨[], []⟩ 0 true).1 = ⟨200, .logoutSuccess, [.clear]⟩ :=
  (http_boundary_response_shapes none ⟨[], []⟩ 0 30 "n" (.ok "a") true).2.1 rfl

/-- The store transition of a successful POST rotation, independent of the
signing outcome (both sign branches return the same store). -/
theorem POST_store_eq {st : Store} {rt : String} {r : RefreshToken}
    {now ttl : Int} {nv : String} {sg : Except String String} (hrt : rt ≠ "")
    (hfind : findByValue st.tokens rt = some r)
    (hrev : r.revokedAt = none) (hexp : ¬ r.expiresAt < now) :
    (POST (some rt) st now ttl nv sg).2
      = { st with tokens :=
          createToken (updateRevoke st.tokens rt now) r.userId nv (now + ttl * 1000) } := by
  unfold POST
  cases sg with
  | error e => simp [falsyStr, hrt, hfind, hrev, hexp]
  | ok at_ => simp [falsyStr, hrt, hfind, hrev, hexp]

/-- Claim C10: the frame property of a successful rotation.  Assuming the
presented value identifies a unique Active row, the POST handler leaves the
user table untouched and changes the token table only by setting
`revokedAt = now` on the presented row and appending exactly one new row
(the successor); every other token row passes through unchanged, and every
row of the resulting table is an old row, the revoked presented row, or the
appended successor. -/
theorem rotation_frame (st : Store) (rt : String) (r : RefreshToken)
    (now ttl : Int) (nv : String) (sg : Except String String)
    (hrt : rt ≠ "") (hfind : findByValue st.tokens rt = some r)
    (hrev : r.revokedAt = none) (hexp : ¬ r.expiresAt < now)
    (huniq : ∀ x ∈ st.tokens, x.token = rt → x = r) :
    (POST (some rt) st now ttl nv sg).2.users = st.users
    ∧ (POST (some rt) st now ttl nv sg).2.tokens.length = st.tokens.length + 1
    ∧ (∀ x ∈ st.tokens, x.token ≠ rt →
        x ∈ (POST (some rt) st now ttl nv sg).2.tokens)
    ∧ { r with revokedAt := some now } ∈ (POST (some rt) st now ttl nv sg).2.tokens
    ∧ (⟨nv, r.userId, now + ttl * 1000, none⟩ : RefreshToken)
        ∈ (POST (some rt) st now ttl nv sg).2.tokens
    ∧ (∀ y ∈ (POST (some rt) st now ttl nv sg).2.tokens,
        y ∈ st.tokens ∨ y = { r with revokedAt := some now }
          ∨ y = ⟨nv, r.userId, now + ttl * 1000, none⟩) := by
  rw [POST_store_eq hrt hfind hrev hexp]
  refine ⟨rfl, ?_, ?_, ?_, ?_, ?_⟩
  · simp [createToken, updateRevoke]
  · intro x hx htok
    exact List.mem_append_left _ (updateRevoke_mem_other hx htok)
  · refine List.mem_append_left _ ?_
    have hr : r ∈ st.tokens := findByValue_mem hfind
    have htok : (r.token == rt) = true := beq_iff_eq.mpr (findByValue_token_eq hfind)
    have : (if r.token == rt then { r with revokedAt := some now } else r)
        = { r with revokedAt := some now } := by rw [if_pos htok]
    exact this ▸ List.mem_map_of_mem _ hr
  · exact List.mem_append_right _ (by simp [createToken])
  · intro y hy
    rcases List.mem_append.mp hy with hmem | hnew
    · rcases List.mem_map.mp hmem with ⟨x, hx, hfx⟩
      by_cases hc : x.token == rt
      · have hxr : x = r := huniq x hx (beq_iff_eq.mp hc)
        subst hxr
        rw [if_pos hc] at hfx
        exact Or.inr (Or.inl hfx.symm)
      · rw [if_neg hc] at hfx
        exact Or.inl (hfx ▸ hx)
    · right; right
      simpa [createToken] using hnew

/-- Claim C10, witness: the frame property evaluated on a concrete store
with one user record and two token rows. -/
theorem rotation_frame_witness :
    (POST (some "t0")
        ⟨[⟨"u1", "u@x.io".toList, none, none, none, none⟩],
          [⟨"t0", "u1", 5000, none⟩, ⟨"t1", "u2", 7000, none⟩]⟩
        0 30 "n1" (.ok "a")).2.users
      = [⟨"u1", "u@x.io".toList, none, none, none, none⟩] :=
  (rotation_frame
    ⟨[⟨"u1", "u@x.io".toList, none, none, none, none⟩],
      [⟨"t0", "u1", 5000, none⟩, ⟨"t1", "u2", 7000, none⟩]⟩
    "t0" ⟨"t0", "u1", 5000, none⟩ 0 30 "n1" (.ok "a")
    (by decide) (by decide) rfl (by decide) (by decide)).1

end LivePreview
